import Mathlib

/-!
Verification of the block contract of the GNU Radio runtime
(`src/gnuradio-core/src/lib/runtime/gr_block.h`).

The header under `src/` declares the `gr_block` class: its inline accessor
members are embedded here directly from the source.  The bodies of the
non-inline members (`forecast`, the scheduler loop, `gr_block_detail`,
the fixed-rate conversions of the sync-block family, `add_item_tag`) live
in translation units that are not part of `src/`; those are modelled from
the specification, and each such definition carries a doc comment saying
so.
-/

namespace GrBlock

/-- Modelled from the spec: `gr_block_detail_sptr` is a shared pointer to
the scheduler-owned per-block runtime state; the block header treats it as
an opaque handle, so we model it as an opaque identifier. -/
def gr_block_detail_sptr : Type := Nat

instance : DecidableEq gr_block_detail_sptr := by
  unfold gr_block_detail_sptr; infer_instance

instance : Inhabited gr_block_detail_sptr := ⟨(0 : Nat)⟩

/-- Embedding of the private data members of `class gr_block`
(`gr_block.h`, lines 222-228).  `d_relative_rate` is a `double` used only
as an advisory hint; no claim depends on it, so it is omitted.
`d_history` is `unsigned`, modelled as `Nat`. -/
structure gr_block where
  d_output_multiple : Int
  d_history : Nat
  d_fixed_rate : Bool
  d_detail : gr_block_detail_sptr

/-- Source: `unsigned history () const { return d_history; }` (line 75). -/
def gr_block.history (b : gr_block) : Nat := b.d_history

/-- Source: `void set_history (unsigned history) { d_history = history; }` (line 76). -/
def gr_block.set_history (b : gr_block) (history : Nat) : gr_block :=
  { b with d_history := history }

/-- Source: `bool fixed_rate() const { return d_fixed_rate; }` (line 83). -/
def gr_block.fixed_rate (b : gr_block) : Bool := b.d_fixed_rate

/-- Source: `void set_fixed_rate(bool fixed_rate){ d_fixed_rate = fixed_rate; }` (line 236). -/
def gr_block.set_fixed_rate (b : gr_block) (f : Bool) : gr_block :=
  { b with d_fixed_rate := f }

/-- Source: `int output_multiple () const { return d_output_multiple; }` (line 146). -/
def gr_block.output_multiple (b : gr_block) : Int := b.d_output_multiple

/-- Source: `gr_block_detail_sptr detail () const { return d_detail; }` (line 299). -/
def gr_block.detail (b : gr_block) : gr_block_detail_sptr := b.d_detail

/-- Source: `void set_detail (gr_block_detail_sptr detail) { d_detail = detail; }` (line 300). -/
def gr_block.set_detail (b : gr_block) (d : gr_block_detail_sptr) : gr_block :=
  { b with d_detail := d }

/-- Source: `WORK_CALLED_PRODUCE = -2` (line 62). -/
def WORK_CALLED_PRODUCE : Int := -2

/-- Source: `WORK_DONE = -1` (line 63). -/
def WORK_DONE : Int := -1

/-- Modelled from the spec: the default `gr_block::forecast` body is not
under `src/` (only its declaration, lines 99-100).  Spec: "Default: every
input needs `noutput_items + history − 1`" — it writes
`noutput_items + history - 1` into every slot of
`ninput_items_required`. -/
def forecast_default (noutput_items : Int) (history : Nat)
    (ninputs : Nat) : List Int :=
  List.replicate ninputs (noutput_items + (history : Int) - 1)

/-!  Fixed-rate conversions.  The header (lines 181-199) says the default
`fixed_rate_ninput_to_noutput` / `fixed_rate_noutput_to_ninput` are only
defined when `fixed_rate()` is true, and that `gr_sync_block`,
`gr_sync_decimator` and `gr_sync_interpolator` override them; none of
those bodies is under `src/`. -/

/-- Modelled from the spec: the shapes of fixed-rate blocks named in the
header comment (line 184): a sync block (rate 1:1), a sync decimator
(`d` inputs per output) and a sync interpolator (`i` outputs per input);
`notFixed` stands for a plain `gr_block` whose `fixed_rate()` is false and
whose conversion functions are not callable. -/
inductive RateModel where
  | notFixed : RateModel
  | sync : RateModel
  | decimator (d : Nat) : RateModel
  | interpolator (i : Nat) : RateModel

/-- Modelled from the spec: `fixed_rate()` for each block shape (header
line 83: default false; the sync-block family sets it true). -/
def RateModel.fixed_rate : RateModel → Bool
  | .notFixed => false
  | _ => true

/-- Modelled from the spec: `fixed_rate_ninput_to_noutput` for each block
shape; `none` when `fixed_rate()` is false, where the header (line 189)
says the function is not defined.  Sync: identity; decimator by `d`:
`ninput / d`; interpolator by `i`: `ninput * i`. -/
def RateModel.fixed_rate_ninput_to_noutput : RateModel → Nat → Option Nat
  | .notFixed, _ => none
  | .sync, n => some n
  | .decimator d, n => some (n / d)
  | .interpolator i, n => some (n * i)

/-- Modelled from the spec: `fixed_rate_noutput_to_ninput` for each block
shape; `none` when `fixed_rate()` is false.  Sync: identity; decimator by
`d`: `noutput * d`; interpolator by `i`: `noutput / i`. -/
def RateModel.fixed_rate_noutput_to_ninput : RateModel → Nat → Option Nat
  | .notFixed, _ => none
  | .sync, n => some n
  | .decimator d, n => some (n * d)
  | .interpolator i, n => some (n / i)

/-- Modelled from the spec: a fixed-rate shape is well formed when its
decimation / interpolation factor is positive. -/
def RateModel.wf : RateModel → Prop
  | .decimator d => 0 < d
  | .interpolator i => 0 < i
  | _ => True

instance : DecidablePred RateModel.wf := by
  intro m; cases m <;> unfold RateModel.wf <;> infer_instance

/-!  Stream counters (`nitems_read` / `nitems_written`) and the per-call
accounting operations `consume`, `consume_each`, `produce`.  Their bodies
live in `gr_block.cc` / `gr_block_detail.cc`, which are not under `src/`. -/

/-- Modelled from the spec: the counters of a single stream — the producer
cursor `nitems_written` and one consumer cursor `nitems_read`
(spec section 3, Stream). -/
structure StreamCounters where
  nitems_read : Nat
  nitems_written : Nat
  deriving DecidableEq, Repr

/-- Modelled from the spec: the accounting operations a `general_work`
call may apply to one stream: `consume` (also on behalf of
`consume_each`) advances the consumer cursor, `produce` advances the
producer cursor (spec section 4.4). -/
inductive StreamOp where
  | consume (n : Nat) : StreamOp
  | produce (n : Nat) : StreamOp
  deriving DecidableEq, Repr

/-- Modelled from the spec: applying one accounting operation to the
stream counters; `consume n` adds `n` to `nitems_read`, `produce n` adds
`n` to `nitems_written` (spec section 4.4: "`consume` advances
`nitems_read[i]`; `produce` advances `nitems_written[j]`"). -/
def StreamCounters.apply : StreamCounters → StreamOp → StreamCounters
  | s, .consume n => { s with nitems_read := s.nitems_read + n }
  | s, .produce n => { s with nitems_written := s.nitems_written + n }

/-- Modelled from the spec: running a trace of accounting operations. -/
def StreamCounters.run (s : StreamCounters) (ops : List StreamOp) : StreamCounters :=
  ops.foldl StreamCounters.apply s

/-- Modelled from the spec: a trace is valid from state `s` when every
`consume` stays within the items available at the moment it runs
(spec section 4.2: "`consume(cursor, n)` never exceeds
`items_available(cursor)`"). -/
def StreamCounters.validFrom : StreamCounters → List StreamOp → Prop
  | _, [] => True
  | s, op :: ops =>
      (match op with
       | .consume n => s.nitems_read + n ≤ s.nitems_written
       | .produce _ => True) ∧ StreamCounters.validFrom (s.apply op) ops

instance : ∀ (s : StreamCounters) (ops : List StreamOp),
    Decidable (StreamCounters.validFrom s ops)
  | _, [] => by unfold StreamCounters.validFrom; infer_instance
  | s, op :: ops =>
      have : Decidable (StreamCounters.validFrom (s.apply op) ops) :=
        instDecidableValidFrom (s.apply op) ops
      by unfold StreamCounters.validFrom; cases op <;> infer_instance

/-- Modelled from the spec: the per-block counter table of
`gr_block_detail` — `nitems_read[i]` per input stream and
`nitems_written[j]` per output stream (spec section 3, Block Detail). -/
structure DetailCounters where
  reads : List Nat
  writes : List Nat
  deriving DecidableEq, Repr

/-- Modelled from the spec: `consume (which_input, how_many_items)`
(header lines 148-151) adds `how_many_items` to
`nitems_read[which_input]`. -/
def DetailCounters.consume (d : DetailCounters) (which_input : Nat)
    (how_many_items : Nat) : DetailCounters :=
  { d with reads := d.reads.modify (· + how_many_items) which_input }

/-- Modelled from the spec: `consume_each (how_many_items)` (header
lines 153-156) adds `how_many_items` to `nitems_read[i]` for every input
stream `i`. -/
def DetailCounters.consume_each (d : DetailCounters)
    (how_many_items : Nat) : DetailCounters :=
  { d with reads := d.reads.map (· + how_many_items) }

/-- Modelled from the spec: `produce (which_output, how_many_items)`
(header lines 158-163) adds `how_many_items` to
`nitems_written[which_output]`. -/
def DetailCounters.produce (d : DetailCounters) (which_output : Nat)
    (how_many_items : Nat) : DetailCounters :=
  { d with writes := d.writes.modify (· + how_many_items) which_output }

/-!  Scheduler-side handling of the `general_work` return value.  The
scheduler loop is not under `src/`; the header documents the contract
(lines 60-64, 110-111) and the spec describes the loop (section 4.5) and
the error taxonomy (section 7). -/

/-- Modelled from the spec: the outcome the scheduler derives from one
`general_work` return: `advanced per` — each output stream `j` advances
by `per[j]` items; `done` — terminal end-of-stream;
`contractViolation` — fatal, the run aborts (spec section 7). -/
inductive WorkOutcome where
  | advanced (per_output : List Nat) : WorkOutcome
  | done : WorkOutcome
  | contractViolation : WorkOutcome
  deriving DecidableEq, Repr

/-- Modelled from the spec: the scheduler interprets the `general_work`
return value `r` (spec section 4.4; header lines 110-111:
"-1 <= return value <= noutput_items"): `WORK_DONE` is terminal;
`WORK_CALLED_PRODUCE` makes the scheduler consult the per-output counts
recorded by `produce` instead of `r`; `r ≥ 0` within bound advances every
output uniformly by `r`; anything else (negative other than the two magic
values, or beyond `noutput_items`) is a ContractViolation
(spec section 7). -/
def handle_work_return (r : Int) (noutput_items : Nat) (noutputs : Nat)
    (per_call_produced : List Nat) : WorkOutcome :=
  if r = WORK_DONE then .done
  else if r = WORK_CALLED_PRODUCE then .advanced per_call_produced
  else if 0 ≤ r ∧ r ≤ (noutput_items : Int) then
    .advanced (List.replicate noutputs r.toNat)
  else .contractViolation

/-- Modelled from the spec: committing an outcome's per-output counts to
the `nitems_written` counters: output `j` advances by `per_output[j]`
(spec section 4.5, step 5: "advance buffer cursors"). -/
def advance_writes (writes : List Nat) (per_output : List Nat) : List Nat :=
  List.zipWith (· + ·) writes per_output

/-- Modelled from the spec: `set_output_multiple` (body in `gr_block.cc`,
not under `src/`): the multiple is a positive integer (spec section 3:
"`output_multiple` (positive integer, default 1)"); a non-positive
argument is rejected. -/
def gr_block.set_output_multiple (b : gr_block) (multiple : Int) :
    Except Unit gr_block :=
  if multiple < 1 then .error ()
  else .ok { b with d_output_multiple := multiple }

/-- Modelled from the spec: the default value of output multiple is 1
(header line 143; the default is installed by the `gr_block` constructor
in `gr_block.cc`, not under `src/`). -/
def default_output_multiple : Int := 1

/-- Modelled from the spec: the `noutput_items` value the scheduler
chooses: the minimum free space over the outputs, rounded down to the
block's `output_multiple` (spec section 4.5, step 1). -/
def scheduler_noutput (min_space : Nat) (output_multiple : Nat) : Nat :=
  min_space / output_multiple * output_multiple

/-- Modelled from the spec: the arguments of one scheduler iteration: the
`noutput_items` value passed to `forecast` (step 3) and to `general_work`
(step 4); header lines 139-143 state both receive a multiple of
`output_multiple`. -/
structure SchedCall where
  to_forecast : Nat
  to_work : Nat
  deriving DecidableEq, Repr

/-- Modelled from the spec: one scheduler iteration passes the same
rounded candidate to `forecast` and to `general_work`
(spec section 4.5, steps 3-4). -/
def scheduler_call (min_space : Nat) (output_multiple : Nat) : SchedCall :=
  { to_forecast := scheduler_noutput min_space output_multiple
    to_work := scheduler_noutput min_space output_multiple }

/-!  Tags.  `add_item_tag` (header lines 239-255) is a pass-through to
`gr_block_detail`, whose body is not under `src/`. -/

/-- Modelled from the spec: a stream tag is a tuple
`(offset, source_id, key, value)` where `offset` is an absolute item
number (spec section 3, Tag).  PMT keys, values and source ids are opaque
dynamic values; they are modelled as identifiers. -/
structure Tag where
  offset : Nat
  srcid : Nat
  key : Nat
  value : Nat
  deriving DecidableEq, Repr

/-- Modelled from the spec: the error raised by an out-of-range
`add_item_tag` offset; it is treated as a ContractViolation
(spec section 7). -/
inductive TagError where
  | tagOutOfRange : TagError
  deriving DecidableEq, Repr

/-- Modelled from the spec: `add_item_tag` (header lines 239-255, body
not under `src/`): attaching a tag on an output requires
`nitems_written(output) ≤ offset < nitems_written(output) + items about
to be produced` at call time (spec section 4.4); outside that range the
call is a TagOutOfRange ContractViolation and no tag is attached
(spec section 7). -/
def add_item_tag (nitems_written : Nat) (about_to_produce : Nat)
    (store : List Tag) (t : Tag) : Except TagError (List Tag) :=
  if nitems_written ≤ t.offset ∧
      t.offset < nitems_written + about_to_produce
  then .ok (store ++ [t])
  else .error .tagOutOfRange

/-!  History window.  The scheduler presents each input to `general_work`
with `history () - 1` valid items before the nominal start (header
lines 68-76; spec section 3: "the input buffer exposes at least
`history-1` items preceding the nominal start"). -/

/-- Modelled from the spec: reading the input window at a (possibly
negative) nominal index `j`: the scheduler hands `general_work` a pointer
`history - 1` items past the start of the exposed buffer region, so
nominal index `j` addresses buffer position `(history - 1) + j`; the read
is valid exactly when that position lies inside the exposed region. -/
def input_read {α : Type} (buf : List α) (history : Nat) (j : Int) :
    Option α :=
  if h : 0 ≤ (history : Int) - 1 + j ∧
      ((history : Int) - 1 + j).toNat < buf.length then
    some (buf.get ⟨((history : Int) - 1 + j).toNat, h.2⟩)
  else none

/-!  Scheduler trace for the WORK_DONE protocol (spec sections 4.5, 5:
teardown; section 8, scenario 6). -/

/-- Modelled from the spec: the events of driving one block: a
`general_work` invocation that returned `r`, or the final `stop` call. -/
inductive SchedEvent where
  | workCall (r : Int) : SchedEvent
  | stopCall : SchedEvent
  deriving DecidableEq, Repr

/-- Modelled from the spec: the scheduler drives one block: call `k`
returns `ret k`; a `WORK_DONE` return is terminal — the block is never
invoked again and `stop` is called; when the run is aborted by the
driver (fuel exhausted) `stop` is still called (spec section 5,
"A hard abort bypasses drain but still invokes `stop`"). -/
def runSched (ret : Nat → Int) : Nat → Nat → List SchedEvent
  | 0, _ => [SchedEvent.stopCall]
  | fuel + 1, k =>
      if ret k = WORK_DONE then
        [SchedEvent.workCall (ret k), SchedEvent.stopCall]
      else
        SchedEvent.workCall (ret k) :: runSched ret fuel (k + 1)

/-!  Theorems settling the claims. -/

/-- Claim C10: the inline configuration accessors of `gr_block` are exact
unvalidated getter/setter round trips: for every block and every unsigned
history value (including 0, below the documented default of 1),
`set_history` followed by `history` returns exactly the value set;
likewise `set_fixed_rate`/`fixed_rate` and `set_detail`/`detail`; no
range checking or rejection occurs in any of these setters. -/
theorem set_get_round_trips :
    ∀ (b : gr_block) (h : Nat) (f : Bool) (d : gr_block_detail_sptr),
      (b.set_history h).history = h ∧
      (b.set_fixed_rate f).fixed_rate = f ∧
      (b.set_detail d).detail = d ∧
      (b.set_history 0).history = 0 :=
  fun _ _ _ _ => ⟨rfl, rfl, rfl, rfl⟩

/-- Claim C2: the default `forecast` implementation, for every requested
output count and every block with history `h`, writes
`noutput_items + h - 1` into `ninput_items_required[i]` for every input
stream `i`. -/
theorem forecast_default_requirement (noutput_items : Int) (history : Nat)
    (ninputs i : Nat) (hi : i < ninputs) :
    (forecast_default noutput_items history ninputs).length = ninputs ∧
    (forecast_default noutput_items history ninputs)[i]? =
      some (noutput_items + (history : Int) - 1) := by
  refine ⟨by simp [forecast_default], ?_⟩
  simp [forecast_default, List.getElem?_replicate, hi]

theorem forecast_default_requirement_witness :
    (forecast_default 10 3 2).length = 2 ∧
    (forecast_default 10 3 2)[0]? = some (10 + (3 : Int) - 1) :=
  forecast_default_requirement 10 3 2 0 (by decide)

/-- Claim C8: every `add_item_tag` call must satisfy
`nitems_written ≤ offset < nitems_written + items_about_to_be_produced`
at call time: exactly then the tag is attached, and an offset outside
this range is a TagOutOfRange error (a fatal ContractViolation) with no
tag attached. -/
theorem add_item_tag_range :
    ∀ (nw p : Nat) (store : List Tag) (t : Tag),
      (add_item_tag nw p store t = .ok (store ++ [t]) ↔
        nw ≤ t.offset ∧ t.offset < nw + p) ∧
      (add_item_tag nw p store t = .error .tagOutOfRange ↔
        ¬(nw ≤ t.offset ∧ t.offset < nw + p)) := by
  intro nw p store t
  unfold add_item_tag
  split <;> simp_all

/-- Claim C7: after a successful `set_output_multiple m`, the block
reports `output_multiple = m` and every `noutput_items` value the
scheduler passes to `general_work` — and also to `forecast` — is an
integer multiple of `m`; the default output multiple is 1. -/
theorem output_multiple_constrains_noutput (b b' : gr_block) (m : Int)
    (hset : b.set_output_multiple m = .ok b') :
    b'.output_multiple = m ∧
    default_output_multiple = 1 ∧
    ∀ space : Nat,
      m.toNat ∣ (scheduler_call space m.toNat).to_forecast ∧
      m.toNat ∣ (scheduler_call space m.toNat).to_work := by
  unfold gr_block.set_output_multiple at hset
  split at hset
  · exact absurd hset (by simp)
  · refine ⟨?_, rfl, ?_⟩
    · cases hset
      rfl
    · intro space
      exact ⟨Dvd.intro_left _ rfl, Dvd.intro_left _ rfl⟩

theorem output_multiple_constrains_noutput_witness :
    (gr_block.mk 4 1 false (0 : Nat)).output_multiple = 4 ∧
    (4 : Int).toNat ∣ (scheduler_call 10 (4 : Int).toNat).to_work :=
  have h := output_multiple_constrains_noutput
    (gr_block.mk 1 1 false (0 : Nat)) (gr_block.mk 4 1 false (0 : Nat)) 4 rfl
  ⟨h.1, (h.2.2 10).2⟩

/-- Claim C1: whenever `general_work` returns a non-negative value `r`
that the scheduler accepts, every output stream advances by exactly `r`
items (uniform across outputs) and `r ≤ noutput_items`; a non-negative
return beyond `noutput_items` is never accepted. -/
theorem general_work_return_uniform (r : Int)
    (noutput_items noutputs : Nat) (per adv : List Nat)
    (hr : 0 ≤ r)
    (hadv : handle_work_return r noutput_items noutputs per = .advanced adv) :
    r.toNat ≤ noutput_items ∧ adv = List.replicate noutputs r.toNat := by
  unfold handle_work_return WORK_DONE WORK_CALLED_PRODUCE at hadv
  rw [if_neg (by omega), if_neg (by omega)] at hadv
  by_cases hc : 0 ≤ r ∧ r ≤ (noutput_items : Int)
  · rw [if_pos hc] at hadv
    cases hadv
    exact ⟨by omega, rfl⟩
  · rw [if_neg hc] at hadv
    exact absurd hadv (by simp)

theorem general_work_return_uniform_witness :
    (3 : Int).toNat ≤ 4 ∧ [3, 3] = List.replicate 2 (3 : Int).toNat :=
  general_work_return_uniform 3 4 2 [] [3, 3] (by decide) (by decide)

/-- Claim C5: a block whose `general_work` reports per-output counts via
`produce` must return `WORK_CALLED_PRODUCE` (-2), and exactly for that
return value the scheduler consults the per-output produced counts
instead of the return value; in the concrete scenario `produce(0,5)`,
`produce(1,7)`, `return WORK_CALLED_PRODUCE`, output 0 advances by 5 and
output 1 by 7, and the downstream consumers observe 5 and 7 items
respectively. -/
theorem work_called_produce_consults_counts :
    (∀ (noutput_items noutputs : Nat) (per : List Nat),
        handle_work_return WORK_CALLED_PRODUCE noutput_items noutputs per =
          .advanced per) ∧
    (((DetailCounters.mk [0, 0] [0, 0]).produce 0 5).produce 1 7).writes
        = [5, 7] ∧
    handle_work_return WORK_CALLED_PRODUCE 16 2
        ((((DetailCounters.mk [0, 0] [0, 0]).produce 0 5).produce 1 7).writes)
        = .advanced [5, 7] ∧
    advance_writes [100, 200] [5, 7] = [105, 207] ∧
    List.zipWith (· - ·) (advance_writes [100, 200] [5, 7]) [100, 200]
        = [5, 7] := by
  refine ⟨?_, by decide, by decide, by decide, by decide⟩
  intro noutput_items noutputs per
  simp [handle_work_return, WORK_CALLED_PRODUCE, WORK_DONE]

/-- Claim C3: for every well-formed fixed-rate block shape, the two rate
conversion functions are callable exactly when `fixed_rate()` is true,
and for all `n ≥ 0` they form a rate inverse pair up to integer
rounding: `fixed_rate_noutput_to_ninput (fixed_rate_ninput_to_noutput n)
≤ n ≤ fixed_rate_noutput_to_ninput (fixed_rate_ninput_to_noutput n + 1)`. -/
theorem fixed_rate_inverse_pair (m : RateModel) (n : Nat) (hwf : m.wf) :
    ((m.fixed_rate_ninput_to_noutput n).isSome ↔ m.fixed_rate = true) ∧
    ((m.fixed_rate_noutput_to_ninput n).isSome ↔ m.fixed_rate = true) ∧
    (∀ out, m.fixed_rate_ninput_to_noutput n = some out →
      ∃ lo hi, m.fixed_rate_noutput_to_ninput out = some lo ∧
        m.fixed_rate_noutput_to_ninput (out + 1) = some hi ∧
        lo ≤ n ∧ n ≤ hi) := by
  cases m with
  | notFixed =>
      refine ⟨by simp [RateModel.fixed_rate_ninput_to_noutput,
                       RateModel.fixed_rate],
              by simp [RateModel.fixed_rate_noutput_to_ninput,
                       RateModel.fixed_rate], ?_⟩
      intro out hout
      exact absurd hout (by simp [RateModel.fixed_rate_ninput_to_noutput])
  | sync =>
      refine ⟨by simp [RateModel.fixed_rate_ninput_to_noutput,
                       RateModel.fixed_rate],
              by simp [RateModel.fixed_rate_noutput_to_ninput,
                       RateModel.fixed_rate], ?_⟩
      intro out hout
      obtain rfl : n = out := by
        simpa [RateModel.fixed_rate_ninput_to_noutput] using hout
      exact ⟨n, n + 1, rfl, rfl, le_refl _, Nat.le_succ _⟩
  | decimator d =>
      have hd : 0 < d := hwf
      refine ⟨by simp [RateModel.fixed_rate_ninput_to_noutput,
                       RateModel.fixed_rate],
              by simp [RateModel.fixed_rate_noutput_to_ninput,
                       RateModel.fixed_rate], ?_⟩
      intro out hout
      obtain rfl : n / d = out := by
        simpa [RateModel.fixed_rate_ninput_to_noutput] using hout
      refine ⟨n / d * d, (n / d + 1) * d, rfl, rfl,
              Nat.div_mul_le_self n d, ?_⟩
      have h1 : d * (n / d) + n % d = n := Nat.div_add_mod n d
      have h2 : n % d < d := Nat.mod_lt n hd
      have h3 : (n / d + 1) * d = d * (n / d) + d := by ring
      rw [h3]
      omega
  | interpolator i =>
      have hi : 0 < i := hwf
      refine ⟨by simp [RateModel.fixed_rate_ninput_to_noutput,
                       RateModel.fixed_rate],
              by simp [RateModel.fixed_rate_noutput_to_ninput,
                       RateModel.fixed_rate], ?_⟩
      intro out hout
      obtain rfl : n * i = out := by
        simpa [RateModel.fixed_rate_ninput_to_noutput] using hout
      refine ⟨n * i / i, (n * i + 1) / i, rfl, rfl, ?_, ?_⟩
      · rw [Nat.mul_div_cancel _ hi]
      · rw [Nat.le_div_iff_mul_le hi]
        exact Nat.le_succ _

theorem fixed_rate_inverse_pair_witness :
    (RateModel.decimator 4).fixed_rate_ninput_to_noutput 10 = some 2 ∧
    (RateModel.decimator 4).fixed_rate_noutput_to_ninput 2 = some 8 ∧
    (RateModel.decimator 4).fixed_rate_noutput_to_ninput 3 = some 12 ∧
    8 ≤ 10 ∧ 10 ≤ 12 := by
  have h := fixed_rate_inverse_pair (RateModel.decimator 4) 10 (by decide)
  obtain ⟨lo, hi, h1, h2, h3, h4⟩ := h.2.2 2 (by decide)
  have hlo : lo = 8 := by
    have h8 : (RateModel.decimator 4).fixed_rate_noutput_to_ninput 2
        = some 8 := by decide
    rw [h1] at h8
    exact Option.some_injective _ h8
  have hhi : hi = 12 := by
    have h12 : (RateModel.decimator 4).fixed_rate_noutput_to_ninput 3
        = some 12 := by decide
    rw [h2] at h12
    exact Option.some_injective _ h12
  subst hlo hhi
  exact ⟨by decide, h1, h2, h3, h4⟩

/-- Claim C9: for every `general_work` invocation on a block with history
`h ≥ 1` presented with an exposed input region of `h - 1` retained items
followed by `ninput` fresh items, every nominal index from `-(h-1)` up to
`ninput - 1` — in particular every negative index down to `-(h-1)` — is a
valid read of `input_items[i]`. -/
theorem history_window_valid_reads {α : Type} (buf : List α)
    (h ninput : Nat) (j : Int)
    (hh : 1 ≤ h) (hlen : buf.length = (h - 1) + ninput)
    (hlo : -((h : Int) - 1) ≤ j) (hhi : j < (ninput : Int)) :
    (input_read buf h j).isSome = true := by
  unfold input_read
  split
  · rfl
  · rename_i hn
    exfalso
    apply hn
    constructor
    · omega
    · omega

theorem history_window_valid_reads_witness :
    (input_read [10, 20, 30, 40, 50] 3 (-2)).isSome = true :=
  history_window_valid_reads [10, 20, 30, 40, 50] 3 3 (-2)
    (by decide) (by decide) (by decide) (by decide)

/-!  Helper lemmas for the counter invariants. -/

theorem StreamCounters.apply_read_le (s : StreamCounters) :
    ∀ op, s.nitems_read ≤ (s.apply op).nitems_read
  | .consume _ => Nat.le_add_right _ _
  | .produce _ => Nat.le_refl _

theorem StreamCounters.apply_write_le (s : StreamCounters) :
    ∀ op, s.nitems_written ≤ (s.apply op).nitems_written
  | .consume _ => Nat.le_refl _
  | .produce _ => Nat.le_add_right _ _

theorem StreamCounters.apply_preserves_inv (s : StreamCounters)
    (op : StreamOp)
    (hinv : s.nitems_read ≤ s.nitems_written)
    (hok : match op with
           | .consume n => s.nitems_read + n ≤ s.nitems_written
           | .produce _ => True) :
    (s.apply op).nitems_read ≤ (s.apply op).nitems_written := by
  cases op with
  | consume n => exact hok
  | produce n => exact le_trans hinv (Nat.le_add_right _ _)

theorem StreamCounters.run_take_inv :
    ∀ (ops : List StreamOp) (s : StreamCounters),
      s.nitems_read ≤ s.nitems_written →
      StreamCounters.validFrom s ops →
      ∀ n, (s.run (ops.take n)).nitems_read ≤
        (s.run (ops.take n)).nitems_written
  | [], s, hinv, _, n => by simpa [StreamCounters.run] using hinv
  | _ :: _, s, hinv, _, 0 => by simpa [StreamCounters.run] using hinv
  | op :: ops, s, hinv, hv, n + 1 => by
      obtain ⟨hok, hrest⟩ := hv
      have hrec := StreamCounters.run_take_inv ops (s.apply op)
        (StreamCounters.apply_preserves_inv s op hinv hok) hrest n
      simpa [StreamCounters.run, List.take_succ_cons] using hrec

theorem StreamCounters.run_take_step (s : StreamCounters)
    (ops : List StreamOp) (n : Nat) :
    (s.run (ops.take n)).nitems_read ≤
      (s.run (ops.take (n + 1))).nitems_read ∧
    (s.run (ops.take n)).nitems_written ≤
      (s.run (ops.take (n + 1))).nitems_written := by
  rw [List.take_succ]
  cases hop : ops[n]? with
  | none => simp [StreamCounters.run]
  | some op =>
      simp only [StreamCounters.run, List.foldl_append, Option.toList_some,
        List.foldl_cons, List.foldl_nil]
      exact ⟨StreamCounters.apply_read_le _ _,
             StreamCounters.apply_write_le _ _⟩

theorem forall₂_le_add_modify (l : List Nat) (k n : Nat) :
    List.Forall₂ (· ≤ ·) l (l.modify (· + n) k) := by
  induction l generalizing k with
  | nil => simp
  | cons a l ih =>
      cases k with
      | zero =>
          rw [List.modify_zero_cons]
          exact List.Forall₂.cons (Nat.le_add_right _ _) (List.forall₂_refl _)
      | succ k =>
          rw [List.modify_succ_cons]
          exact List.Forall₂.cons (le_refl a) (ih k)

theorem forall₂_le_add_map (l : List Nat) (n : Nat) :
    List.Forall₂ (· ≤ ·) l (l.map (· + n)) := by
  induction l with
  | nil => exact List.Forall₂.nil
  | cons a l ih => exact List.Forall₂.cons (Nat.le_add_right _ _) ih

/-- Claim C4: for every stream, at every moment of a valid execution
trace, `nitems_read ≤ nitems_written`; both counters are monotonic
non-decreasing from one moment to the next; and at the block level
`consume`/`consume_each` only advance the `nitems_read` entries while
`produce` only advances the `nitems_written` entries — no operation ever
decreases a counter. -/
theorem counters_monotone_invariant (s : StreamCounters)
    (ops : List StreamOp)
    (hinv : s.nitems_read ≤ s.nitems_written)
    (hv : StreamCounters.validFrom s ops) :
    (∀ n, (s.run (ops.take n)).nitems_read ≤
        (s.run (ops.take n)).nitems_written) ∧
    (∀ n, (s.run (ops.take n)).nitems_read ≤
            (s.run (ops.take (n + 1))).nitems_read ∧
          (s.run (ops.take n)).nitems_written ≤
            (s.run (ops.take (n + 1))).nitems_written) ∧
    (∀ (d : DetailCounters) (i m : Nat),
        List.Forall₂ (· ≤ ·) d.reads (d.consume i m).reads ∧
        List.Forall₂ (· ≤ ·) d.reads (d.consume_each m).reads ∧
        List.Forall₂ (· ≤ ·) d.writes (d.produce i m).writes ∧
        (d.consume i m).writes = d.writes ∧
        (d.consume_each m).writes = d.writes ∧
        (d.produce i m).reads = d.reads) :=
  ⟨StreamCounters.run_take_inv ops s hinv hv,
   fun n => StreamCounters.run_take_step s ops n,
   fun d i m => ⟨forall₂_le_add_modify _ _ _, forall₂_le_add_map _ _,
                 forall₂_le_add_modify _ _ _, rfl, rfl, rfl⟩⟩

theorem counters_monotone_invariant_witness :
    ((StreamCounters.mk 0 0).run
        ([StreamOp.produce 5, StreamOp.consume 3,
          StreamOp.produce 2, StreamOp.consume 4].take 2)).nitems_read ≤
    ((StreamCounters.mk 0 0).run
        ([StreamOp.produce 5, StreamOp.consume 3,
          StreamOp.produce 2, StreamOp.consume 4].take 2)).nitems_written :=
  (counters_monotone_invariant ⟨0, 0⟩
      [StreamOp.produce 5, StreamOp.consume 3,
       StreamOp.produce 2, StreamOp.consume 4]
      (by decide) (by decide)).1 2

theorem stop_mem_runSched (ret : Nat → Int) :
    ∀ (fuel k : Nat), SchedEvent.stopCall ∈ runSched ret fuel k
  | 0, _ => by simp [runSched]
  | fuel + 1, k => by
      simp only [runSched]
      split
      · simp
      · exact List.mem_cons_of_mem _ (stop_mem_runSched ret fuel (k + 1))

/-- Claim C6: a `WORK_DONE` return from `general_work` is terminal: in
the scheduler trace driving a block, once some call returns `WORK_DONE`
there is exactly one further event — the `stop` call — so `general_work`
is never invoked again, `stop` is still called on the block afterwards
(also on a hard abort), and the items already produced drain fully to the
downstream consumer before end-of-stream. -/
theorem work_done_terminal (ret : Nat → Int) (fuel k i : Nat)
    (hi : (runSched ret fuel k)[i]? = some (SchedEvent.workCall WORK_DONE)) :
    SchedEvent.stopCall ∈ runSched ret fuel k ∧
    ((runSched ret fuel k).length = i + 2 ∧
      (runSched ret fuel k)[i + 1]? = some SchedEvent.stopCall) ∧
    (∀ s : StreamCounters, s.nitems_read ≤ s.nitems_written →
      (s.apply (StreamOp.consume
          (s.nitems_written - s.nitems_read))).nitems_read
        = s.nitems_written) := by
  refine ⟨stop_mem_runSched ret fuel k, ?_, ?_⟩
  · induction fuel generalizing k i with
    | zero =>
        simp only [runSched] at hi
        cases i with
        | zero => simp_all
        | succ i => simp_all
    | succ fuel ih =>
        simp only [runSched] at hi ⊢
        by_cases hr : ret k = WORK_DONE
        · rw [if_pos hr] at hi ⊢
          cases i with
          | zero => simp
          | succ i =>
              cases i with
              | zero => simp_all
              | succ i => simp_all
        · rw [if_neg hr] at hi ⊢
          cases i with
          | zero =>
              simp only [List.getElem?_cons_zero, Option.some_inj] at hi
              exact absurd (SchedEvent.workCall.inj hi) hr
          | succ i =>
              have hrec := ih (k + 1) i (by simpa using hi)
              refine ⟨?_, ?_⟩
              · simp [hrec.1]
              · simpa using hrec.2
  · intro s hs
    simp only [StreamCounters.apply]
    omega

theorem work_done_terminal_witness :
    (runSched (fun c => if c < 2 then 1 else WORK_DONE) 10 0).length
      = 2 + 2 :=
  (work_done_terminal (fun c => if c < 2 then 1 else WORK_DONE) 10 0 2
    (by decide)).2.1.1

end GrBlock
